import Mathlib

/-!
Verification of the waveterm MPT connection/session synchronization core
against its natural-language specification.

The development shallowly embeds three parts of the program:
* the Session State Store (session metadata map, per-session output buffers,
  the active-session pointer);
* the Connection Manager (socket lifecycle, outbound queue, reconnection
  timer, connection-state observers), modelled as an explicit event-step
  state machine;
* the searchOutput function of the output-parser service.

Timestamps are explicit natural-number parameters, JSON frames are an
inductive Frame type, and the regular-expression engine used by
searchOutput is abstracted as a first-match function on a line.
-/

namespace SessionStore

/-- Modelled from the spec: the Session record of the Session State Store
(src/frontend/app/mpt/store/session-store.ts is absent from the sources;
only its tests are present).  Spec section 3: id, display name, status,
connection kind, optional region, created timestamp, last-activity
timestamp. -/
structure Session where
  id : String
  name : String
  status : String
  connectionType : String
  region : Option String
  createdAt : Nat
  lastActivity : Nat
deriving Repr, DecidableEq

/-- Modelled from the spec: SessionEntry, the store's unit of storage
(spec section 3): session metadata, bounded output buffer, activity
timestamp and the is-active flag. -/
structure SessionEntry where
  session : Session
  output : List String
  lastActivity : Nat
  isActive : Bool
deriving Repr, DecidableEq

/-- Modelled from the spec: the Session State Store state: a mapping from
session id to SessionEntry (an association list) plus the single
active-session pointer. -/
structure StoreState where
  sessions : List (String × SessionEntry)
  activeSessionId : Option String
deriving Repr, DecidableEq

/-- The store before any mutation: empty map, null active pointer
(matching the initial values asserted by the store tests). -/
def initStore : StoreState := { sessions := [], activeSessionId := none }

/-- Association-list lookup by session id (first match). -/
def lookupEntry : List (String × SessionEntry) → String → Option SessionEntry
  | [], _ => none
  | p :: rest, id => if p.1 = id then some p.2 else lookupEntry rest id

/-- Rewrite an entry in place; identity when the id is absent. -/
def modifyEntry (f : SessionEntry → SessionEntry) (id : String) :
    List (String × SessionEntry) → List (String × SessionEntry)
  | [] => []
  | p :: rest =>
      if p.1 = id then (p.1, f p.2) :: rest else p :: modifyEntry f id rest

/-- Modelled from the spec: upsert(session) on the underlying list
(spec 4.5).  An existing entry keeps its output buffer and lastActivity
and only the Session metadata is replaced; a new entry starts with an
empty buffer.  isActive is recomputed from the current active-session
pointer, never taken from the payload. -/
def upsertList (active : Option String) (now : Nat) (s : Session) :
    List (String × SessionEntry) → List (String × SessionEntry)
  | [] =>
      [(s.id, { session := s, output := [], lastActivity := now,
                isActive := decide (active = some s.id) })]
  | p :: rest =>
      if p.1 = s.id then
        (p.1, { session := s, output := p.2.output,
                lastActivity := p.2.lastActivity,
                isActive := decide (active = some s.id) }) :: rest
      else p :: upsertList active now s rest

/-- Modelled from the spec: upsert(session) (spec 4.5). -/
def upsertSession (now : Nat) (s : Session) (st : StoreState) : StoreState :=
  { st with sessions := upsertList st.activeSessionId now s st.sessions }

/-- Modelled from the spec: remove(id): deletes the entry; if it was the
active session, clears the active pointer (spec 4.5). -/
def removeSession (id : String) (st : StoreState) : StoreState :=
  { sessions := st.sessions.filter (fun p => p.1 ≠ id),
    activeSessionId :=
      if st.activeSessionId = some id then none else st.activeSessionId }

/-- Modelled from the spec: updateStatus(id, status): no-op if id absent;
otherwise mutates status and refreshes lastActivity to now (spec 4.5). -/
def updateSessionStatus (now : Nat) (id : String) (status : String)
    (st : StoreState) : StoreState :=
  { st with
    sessions :=
      modifyEntry
        (fun e =>
          { e with
            session := { e.session with status := status }
            lastActivity := now })
        id st.sessions }

/-- The bounded append used by appendOutput: append, then evict from the
front until the length is at most maxLines.  Natural-number subtraction
makes the drop a no-op when the buffer fits. -/
def boundedAppend (maxLines : Nat) (line : String) (out : List String) :
    List String :=
  let grown := out ++ [line]
  grown.drop (grown.length - maxLines)

/-- Modelled from the spec: appendOutput(id, line, maxLines): no-op if id
absent; appends; if the resulting length exceeds maxLines, evicts from
the front (oldest first) until the length equals maxLines (spec 4.5). -/
def appendSessionOutput (id : String) (line : String) (maxLines : Nat)
    (st : StoreState) : StoreState :=
  { st with
    sessions :=
      modifyEntry (fun e => { e with output := boundedAppend maxLines line e.output })
        id st.sessions }

/-- Modelled from the spec: clearOutput(id) (spec 4.5). -/
def clearSessionOutput (id : String) (st : StoreState) : StoreState :=
  { st with
    sessions := modifyEntry (fun e => { e with output := [] }) id st.sessions }

/-- Modelled from the spec: setActive(id or null): sets the pointer and
recomputes isActive on exactly the old and the new target entries; all
other entries are left untouched (spec 4.5). -/
def setActiveSession (target : Option String) (st : StoreState) : StoreState :=
  { sessions :=
      st.sessions.map (fun p =>
        if some p.1 = st.activeSessionId ∨ some p.1 = target then
          (p.1, { p.2 with isActive := decide (target = some p.1) })
        else p),
    activeSessionId := target }

/-- Modelled from the spec: bulkReplace(sessions) (the
setSessionsFromApi mutation): replaces the entire map from an
authoritative list while preserving each surviving entry's output buffer
and lastActivity; entries absent from the new list are dropped
(spec 4.5). -/
def setSessionsFromApi (now : Nat) (ss : List Session) (st : StoreState) :
    StoreState :=
  { st with
    sessions :=
      ss.map (fun s =>
        (s.id,
          match lookupEntry st.sessions s.id with
          | some e =>
              { session := s, output := e.output,
                lastActivity := e.lastActivity,
                isActive := decide (st.activeSessionId = some s.id) }
          | none =>
              { session := s, output := [], lastActivity := now,
                isActive := decide (st.activeSessionId = some s.id) })) }

/-- The store's mutation operations as explicit events, so that claims
about arbitrary operation sequences can be stated. -/
inductive StoreOp where
  | opUpsert (now : Nat) (s : Session)
  | opRemove (id : String)
  | opUpdateStatus (now : Nat) (id : String) (status : String)
  | opAppendOutput (id : String) (line : String) (maxLines : Nat)
  | opClearOutput (id : String)
  | opSetActive (target : Option String)
  | opBulkReplace (now : Nat) (ss : List Session)
deriving Repr

/-- Interpretation of one store operation. -/
def applyOp (st : StoreState) : StoreOp → StoreState
  | .opUpsert now s => upsertSession now s st
  | .opRemove id => removeSession id st
  | .opUpdateStatus now id status => updateSessionStatus now id status st
  | .opAppendOutput id line maxLines => appendSessionOutput id line maxLines st
  | .opClearOutput id => clearSessionOutput id st
  | .opSetActive target => setActiveSession target st
  | .opBulkReplace now ss => setSessionsFromApi now ss st

/-- Interpretation of a sequence of store operations, oldest first. -/
def applyOps (ops : List StoreOp) (st : StoreState) : StoreState :=
  ops.foldl applyOp st

/-- The operation is an upsert or a setActive (the operations claim C1
quantifies over). -/
def upsertOrSetActive : StoreOp → Prop
  | .opUpsert _ _ => True
  | .opSetActive _ => True
  | _ => False

/-- The is-active flag of every entry agrees with the active-session
pointer. -/
def flagInv (st : StoreState) : Prop :=
  ∀ p ∈ st.sessions, p.2.isActive = true ↔ st.activeSessionId = some p.1

/-- The session keys are distinct. -/
def keysNodup (st : StoreState) : Prop :=
  (st.sessions.map Prod.fst).Nodup

end SessionStore

namespace SessionStore

/-- The operation is an upsert or a setActive, as a Boolean test. -/
def isUpsertOrSetActive : StoreOp → Bool
  | .opUpsert _ _ => true
  | .opSetActive _ => true
  | _ => false

theorem mem_keys_upsertList {a : Option String} {now : Nat} {s : Session}
    {l : List (String × SessionEntry)} {x : String} :
    x ∈ (upsertList a now s l).map Prod.fst ↔
      x = s.id ∨ x ∈ l.map Prod.fst := by
  induction l with
  | nil => simp [upsertList]
  | cons p rest ih =>
      simp only [upsertList]
      by_cases hp : p.1 = s.id
      · rw [if_pos hp]
        simp only [List.map_cons, List.mem_cons, hp]
        tauto
      · rw [if_neg hp]
        simp only [List.map_cons, List.mem_cons, ih]
        tauto

theorem keysNodup_upsertList {a : Option String} {now : Nat} {s : Session}
    {l : List (String × SessionEntry)} (h : (l.map Prod.fst).Nodup) :
    ((upsertList a now s l).map Prod.fst).Nodup := by
  induction l with
  | nil => simp [upsertList]
  | cons p rest ih =>
      simp only [List.map_cons, List.nodup_cons] at h
      simp only [upsertList]
      by_cases hp : p.1 = s.id
      · rw [if_pos hp]
        simp only [List.map_cons, List.nodup_cons]
        exact h
      · rw [if_neg hp]
        simp only [List.map_cons, List.nodup_cons]
        refine ⟨fun hmem => ?_, ih h.2⟩
        rcases mem_keys_upsertList.mp hmem with h1 | h1
        · exact hp h1
        · exact h.1 h1

theorem flagInv_upsertList {a : Option String} {now : Nat} {s : Session}
    {l : List (String × SessionEntry)}
    (h : ∀ p ∈ l, p.2.isActive = true ↔ a = some p.1) :
    ∀ p ∈ upsertList a now s l, p.2.isActive = true ↔ a = some p.1 := by
  induction l with
  | nil =>
      intro p hp
      simp only [upsertList, List.mem_singleton] at hp
      subst hp
      simp
  | cons q rest ih =>
      intro p hp
      simp only [upsertList] at hp
      by_cases hq : q.1 = s.id
      · rw [if_pos hq] at hp
        rcases List.mem_cons.mp hp with hp1 | hp1
        · subst hp1; simp [hq]
        · exact h p (List.mem_cons_of_mem _ hp1)
      · rw [if_neg hq] at hp
        rcases List.mem_cons.mp hp with hp1 | hp1
        · rw [hp1]; exact h q (List.mem_cons_self _ _)
        · exact ih (fun r hr => h r (List.mem_cons_of_mem _ hr)) p hp1

theorem flagInv_upsert {st : StoreState} (now : Nat) (s : Session)
    (h : flagInv st) : flagInv (upsertSession now s st) := by
  intro p hp
  exact flagInv_upsertList h p hp

theorem keysNodup_upsert {st : StoreState} (now : Nat) (s : Session)
    (h : keysNodup st) : keysNodup (upsertSession now s st) :=
  keysNodup_upsertList h

theorem keys_setActive (st : StoreState) (target : Option String) :
    (setActiveSession target st).sessions.map Prod.fst =
      st.sessions.map Prod.fst := by
  simp only [setActiveSession, List.map_map]
  refine List.map_congr_left ?_
  intro p _
  by_cases hc : some p.1 = st.activeSessionId ∨ some p.1 = target <;>
    simp [hc]

theorem keysNodup_setActive {st : StoreState} (target : Option String)
    (h : keysNodup st) : keysNodup (setActiveSession target st) := by
  unfold keysNodup
  rw [keys_setActive]
  exact h

theorem flagInv_setActive {st : StoreState} (target : Option String)
    (h : flagInv st) : flagInv (setActiveSession target st) := by
  intro p hp
  simp only [setActiveSession, List.mem_map] at hp
  obtain ⟨q, hq, hfq⟩ := hp
  by_cases hc : some q.1 = st.activeSessionId ∨ some q.1 = target
  · rw [if_pos hc] at hfq
    subst hfq
    simp [setActiveSession]
  · rw [if_neg hc] at hfq
    subst hfq
    push_neg at hc
    have hfalse : q.2.isActive = false := by
      rcases Bool.eq_false_or_eq_true q.2.isActive with hb | hb
      · exact absurd (((h q hq).mp hb).symm) hc.1
      · exact hb
    simp only [setActiveSession, hfalse]
    constructor
    · intro hcontra; cases hcontra
    · intro htar; exact absurd htar.symm hc.2

theorem countActive_le_one {l : List (String × SessionEntry)}
    {a : Option String} (hnodup : (l.map Prod.fst).Nodup)
    (hinv : ∀ p ∈ l, p.2.isActive = true ↔ a = some p.1) :
    l.countP (fun p => p.2.isActive) ≤ 1 := by
  induction l with
  | nil => simp
  | cons p rest ih =>
      simp only [List.map_cons, List.nodup_cons] at hnodup
      rcases Bool.eq_false_or_eq_true p.2.isActive with hb | hb
      · have ha : a = some p.1 := (hinv p (List.mem_cons_self _ _)).mp hb
        have hrest : rest.countP (fun q => q.2.isActive) = 0 := by
          rw [List.countP_eq_zero]
          intro q hq
          rcases Bool.eq_false_or_eq_true q.2.isActive with hqb | hqb
          · have hq1 : a = some q.1 :=
              (hinv q (List.mem_cons_of_mem _ hq)).mp hqb
            have hkey : p.1 = q.1 := by
              rw [ha] at hq1
              exact Option.some.inj hq1
            exact absurd (hkey ▸ List.mem_map_of_mem Prod.fst hq) hnodup.1
          · simp [hqb]
        simp [List.countP_cons, hb, hrest]
      · have hrest := ih hnodup.2
          (fun q hq => hinv q (List.mem_cons_of_mem _ hq))
        simpa [List.countP_cons, hb] using hrest

theorem storeInv_ops (ops : List StoreOp)
    (h : ∀ op ∈ ops, isUpsertOrSetActive op = true) :
    flagInv (applyOps ops initStore) ∧ keysNodup (applyOps ops initStore) := by
  suffices hgen : ∀ st, (∀ op ∈ ops, isUpsertOrSetActive op = true) →
      flagInv st → keysNodup st →
      flagInv (applyOps ops st) ∧ keysNodup (applyOps ops st) by
    refine hgen initStore h ?_ ?_
    · intro p hp; cases hp
    · simp [keysNodup, initStore]
  clear h
  induction ops with
  | nil => intro st _ h1 h2; exact ⟨h1, h2⟩
  | cons op rest ih =>
      intro st h h1 h2
      have hop := h op (List.mem_cons_self _ _)
      have hrest : ∀ o ∈ rest, isUpsertOrSetActive o = true :=
        fun o ho => h o (List.mem_cons_of_mem _ ho)
      match op with
      | .opUpsert now s =>
          exact ih (upsertSession now s st) hrest
            (flagInv_upsert now s h1) (keysNodup_upsert now s h2)
      | .opSetActive target =>
          exact ih (setActiveSession target st) hrest
            (flagInv_setActive target h1) (keysNodup_setActive target h2)
      | .opRemove _ => simp [isUpsertOrSetActive] at hop
      | .opUpdateStatus _ _ _ => simp [isUpsertOrSetActive] at hop
      | .opAppendOutput _ _ _ => simp [isUpsertOrSetActive] at hop
      | .opClearOutput _ => simp [isUpsertOrSetActive] at hop
      | .opBulkReplace _ _ => simp [isUpsertOrSetActive] at hop

theorem boundedAppend_eq_rtake (k : Nat) (line : String) (out : List String) :
    boundedAppend k line out = (out ++ [line]).rtake k := rfl

theorem rtake_append_rtake (k : Nat) (A B : List String) :
    (A.rtake k ++ B).rtake k = (A ++ B).rtake k := by
  simp only [List.rtake_eq_reverse_take_reverse, List.reverse_append,
    List.reverse_reverse]
  rw [List.take_append_eq_append_take, List.take_append_eq_append_take,
    List.take_take, Nat.min_eq_left (Nat.sub_le _ _)]

theorem foldl_boundedAppend (k : Nat) :
    ∀ (L : List String) (o : List String), L ≠ [] →
      L.foldl (fun o l => boundedAppend k l o) o = (o ++ L).rtake k := by
  intro L
  induction L with
  | nil => intro o h; exact absurd rfl h
  | cons l rest ih =>
      intro o _
      rcases eq_or_ne rest [] with hr | hr
      · subst hr
        simp [boundedAppend_eq_rtake]
      · calc (l :: rest).foldl (fun o l => boundedAppend k l o) o
            = rest.foldl (fun o l => boundedAppend k l o) ((o ++ [l]).rtake k) := by
              simp [boundedAppend_eq_rtake]
          _ = ((o ++ [l]).rtake k ++ rest).rtake k := ih _ hr
          _ = ((o ++ [l]) ++ rest).rtake k := rtake_append_rtake k _ _
          _ = (o ++ l :: rest).rtake k := by simp

theorem rtake_append_right {k : Nat} (A B : List String) (h : k ≤ B.length) :
    (A ++ B).rtake k = B.rtake k := by
  unfold List.rtake
  have harith : A.length + B.length - k = A.length + (B.length - k) := by omega
  rw [List.length_append, harith, List.drop_append]

theorem lookupEntry_modifyEntry_self {l : List (String × SessionEntry)}
    {id : String} {e : SessionEntry} (f : SessionEntry → SessionEntry)
    (h : lookupEntry l id = some e) :
    lookupEntry (modifyEntry f id l) id = some (f e) := by
  induction l with
  | nil => cases h
  | cons p rest ih =>
      by_cases hp : p.1 = id
      · simp only [lookupEntry, if_pos hp] at h
        simp only [modifyEntry, if_pos hp, lookupEntry]
        rw [Option.some.inj h]
      · simp only [lookupEntry, if_neg hp] at h
        simp only [modifyEntry, if_neg hp, lookupEntry]
        exact ih h

theorem lookupEntry_appendFold {id : String} (k : Nat) :
    ∀ (L : List String) (st : StoreState) (e : SessionEntry),
      lookupEntry st.sessions id = some e →
      lookupEntry
        ((L.foldl (fun s l => appendSessionOutput id l k s) st).sessions) id =
        some { e with output := L.foldl (fun o l => boundedAppend k l o) e.output } := by
  intro L
  induction L with
  | nil => intro st e h; exact h
  | cons l rest ih =>
      intro st e h
      have hstep :
          lookupEntry (appendSessionOutput id l k st).sessions id =
            some { e with output := boundedAppend k l e.output } :=
        lookupEntry_modifyEntry_self _ h
      simpa using ih (appendSessionOutput id l k st) _ hstep

theorem appendFold_bound {st : StoreState} {id : String} {e : SessionEntry}
    (k : Nat) (L : List String)
    (h : lookupEntry st.sessions id = some e) (hk : k < L.length) :
    lookupEntry
        ((L.foldl (fun s l => appendSessionOutput id l k s) st).sessions) id =
      some { e with output := L.drop (L.length - k) } ∧
    (L.drop (L.length - k)).length = k := by
  have hne : L ≠ [] := by
    intro hcontra
    rw [hcontra] at hk
    exact absurd hk (by simp)
  have hfold := lookupEntry_appendFold k L st e h
  rw [foldl_boundedAppend k L e.output hne] at hfold
  rw [rtake_append_right e.output L (Nat.le_of_lt hk)] at hfold
  constructor
  · exact hfold
  · rw [List.length_drop]
    omega

theorem lookupEntry_upsertList_self {a : Option String} {now : Nat}
    {s : Session} {l : List (String × SessionEntry)} {e : SessionEntry}
    (h : lookupEntry l s.id = some e) :
    lookupEntry (upsertList a now s l) s.id =
      some { session := s, output := e.output, lastActivity := e.lastActivity,
             isActive := decide (a = some s.id) } := by
  induction l with
  | nil => cases h
  | cons p rest ih =>
      by_cases hp : p.1 = s.id
      · simp only [lookupEntry, if_pos hp] at h
        simp only [upsertList, if_pos hp, lookupEntry]
        rw [Option.some.inj h]
      · simp only [lookupEntry, if_neg hp] at h
        simp only [upsertList, if_neg hp, lookupEntry, if_neg hp]
        exact ih h

theorem lookupEntry_mapIds {g : Session → SessionEntry} {ss : List Session}
    {s' : Session} (hnodup : (ss.map Session.id).Nodup) (hmem : s' ∈ ss) :
    lookupEntry (ss.map (fun s => (s.id, g s))) s'.id = some (g s') := by
  induction ss with
  | nil => cases hmem
  | cons t rest ih =>
      simp only [List.map_cons, List.nodup_cons] at hnodup
      by_cases hid : t.id = s'.id
      · simp only [List.map_cons, lookupEntry, if_pos hid]
        rcases List.mem_cons.mp hmem with hm | hm
        · rw [hm]
        · exact absurd (hid ▸ List.mem_map_of_mem Session.id hm) hnodup.1
      · simp only [List.map_cons, lookupEntry, if_neg hid]
        rcases List.mem_cons.mp hmem with hm | hm
        · exact absurd (congrArg Session.id hm.symm) hid
        · exact ih hnodup.2 hm

theorem lookupEntry_mapIds_none {g : Session → SessionEntry}
    {ss : List Session} {id : String} (h : id ∉ ss.map Session.id) :
    lookupEntry (ss.map (fun s => (s.id, g s))) id = none := by
  induction ss with
  | nil => rfl
  | cons t rest ih =>
      simp only [List.map_cons, List.mem_cons] at h
      push_neg at h
      have hne : ¬(t.id = id) := fun hc => h.1 hc.symm
      simp only [List.map_cons, lookupEntry, if_neg hne]
      exact ih h.2

theorem lookupEntry_isSome_iff {l : List (String × SessionEntry)} {id : String} :
    (lookupEntry l id).isSome = true ↔ id ∈ l.map Prod.fst := by
  induction l with
  | nil => simp [lookupEntry]
  | cons p rest ih =>
      by_cases hp : p.1 = id
      · simp [lookupEntry, hp]
      · simp only [lookupEntry, if_neg hp, List.map_cons, List.mem_cons, ih]
        constructor
        · intro hmem; exact Or.inr hmem
        · intro hmem
          rcases hmem with hm | hm
          · exact absurd hm.symm hp
          · exact hm

theorem keys_modifyEntry (f : SessionEntry → SessionEntry) (id : String)
    (l : List (String × SessionEntry)) :
    (modifyEntry f id l).map Prod.fst = l.map Prod.fst := by
  induction l with
  | nil => rfl
  | cons p rest ih =>
      by_cases hp : p.1 = id
      · simp [modifyEntry, hp]
      · simp [modifyEntry, hp, ih]

theorem modifyEntry_absent {l : List (String × SessionEntry)} {id : String}
    (f : SessionEntry → SessionEntry) (h : lookupEntry l id = none) :
    modifyEntry f id l = l := by
  induction l with
  | nil => rfl
  | cons p rest ih =>
      by_cases hp : p.1 = id
      · simp only [lookupEntry, if_pos hp] at h
        cases h
      · simp only [lookupEntry, if_neg hp] at h
        simp [modifyEntry, hp, ih h]

/-- The non-null active pointer names an existing entry. -/
def pointerValid (st : StoreState) : Prop :=
  ∀ id, st.activeSessionId = some id →
    (lookupEntry st.sessions id).isSome = true

/-- Validity of a single operation with respect to referential integrity:
setActive must name an existing session (or null) and an authoritative
bulkReplace list must still contain the currently active session.  The
spec presumes both ("the new target entry", "always refers to an existing
SessionEntry"). -/
def opValid (st : StoreState) : StoreOp → Prop
  | .opSetActive (some id) => (lookupEntry st.sessions id).isSome = true
  | .opBulkReplace _ ss =>
      ∀ id, st.activeSessionId = some id → id ∈ ss.map Session.id
  | _ => True

/-- Validity of an operation sequence: each operation is valid in the
state it is applied to. -/
def validOps : StoreState → List StoreOp → Prop
  | _, [] => True
  | st, op :: rest => opValid st op ∧ validOps (applyOp st op) rest

theorem keys_setSessionsFromApi (now : Nat) (ss : List Session)
    (st : StoreState) :
    (setSessionsFromApi now ss st).sessions.map Prod.fst =
      ss.map Session.id := by
  simp [setSessionsFromApi, List.map_map, Function.comp]

theorem pointerValid_applyOp {st : StoreState} {op : StoreOp}
    (hval : opValid st op) (h : pointerValid st) :
    pointerValid (applyOp st op) := by
  match op with
  | .opUpsert now s =>
      intro id hid
      have hold := h id hid
      rw [lookupEntry_isSome_iff] at hold ⊢
      exact mem_keys_upsertList.mpr (Or.inr hold)
  | .opRemove rid =>
      intro id hid
      simp only [applyOp, removeSession] at hid
      by_cases hc : st.activeSessionId = some rid
      · rw [if_pos hc] at hid; cases hid
      · rw [if_neg hc] at hid
        have hold := h id hid
        rw [lookupEntry_isSome_iff] at hold ⊢
        have hne : id ≠ rid := by
          intro hcontra
          exact hc (hcontra ▸ hid)
        obtain ⟨q, hq, hq1⟩ := List.mem_map.mp hold
        simp only [applyOp, removeSession]
        refine List.mem_map.mpr ⟨q, List.mem_filter.mpr ⟨hq, ?_⟩, hq1⟩
        simpa [hq1] using hne
  | .opUpdateStatus now id2 status =>
      intro id hid
      have hold := h id hid
      rw [lookupEntry_isSome_iff] at hold ⊢
      simpa [applyOp, updateSessionStatus, keys_modifyEntry] using hold
  | .opAppendOutput id2 line k =>
      intro id hid
      have hold := h id hid
      rw [lookupEntry_isSome_iff] at hold ⊢
      simpa [applyOp, appendSessionOutput, keys_modifyEntry] using hold
  | .opClearOutput id2 =>
      intro id hid
      have hold := h id hid
      rw [lookupEntry_isSome_iff] at hold ⊢
      simpa [applyOp, clearSessionOutput, keys_modifyEntry] using hold
  | .opSetActive tgt =>
      intro id hid
      simp only [applyOp, setActiveSession] at hid
      subst hid
      rw [lookupEntry_isSome_iff]
      show id ∈ (setActiveSession (some id) st).sessions.map Prod.fst
      rw [keys_setActive st (some id)]
      simpa [opValid, lookupEntry_isSome_iff] using hval
  | .opBulkReplace now ss =>
      intro id hid
      simp only [applyOp] at hid ⊢
      rw [lookupEntry_isSome_iff, keys_setSessionsFromApi]
      simp only [setSessionsFromApi] at hid
      exact hval id hid

theorem pointerValid_ops (ops : List StoreOp) (hv : validOps initStore ops) :
    pointerValid (applyOps ops initStore) := by
  suffices hgen : ∀ st, pointerValid st → validOps st ops →
      pointerValid (applyOps ops st) by
    refine hgen initStore ?_ hv
    intro id hid
    cases hid
  clear hv
  induction ops with
  | nil => intro st h _; exact h
  | cons op rest ih =>
      intro st h hv
      exact ih (applyOp st op) (pointerValid_applyOp hv.1 h) hv.2

theorem lookupEntry_removeSession_self (st : StoreState) (rid : String) :
    lookupEntry (removeSession rid st).sessions rid = none := by
  rcases hiff : lookupEntry (removeSession rid st).sessions rid with _ | e
  · rfl
  · have hsome : (lookupEntry (removeSession rid st).sessions rid).isSome = true := by
      rw [hiff]; rfl
    rw [lookupEntry_isSome_iff] at hsome
    obtain ⟨q, hq, hq1⟩ := List.mem_map.mp hsome
    simp only [removeSession, List.mem_filter] at hq
    have := hq.2
    simp only [hq1] at this
    simp at this

/-- A concrete session record used by the evaluation witnesses. -/
def sampleSession (id : String) : Session :=
  { id := id, name := id, status := "connected",
    connectionType := "shellserver", region := some "prn",
    createdAt := 0, lastActivity := 0 }

/-- Claim C1: after any sequence of upsert and setActive operations
starting from the empty store, at most one SessionEntry has
isActive = true, and an entry's flag is true exactly when the
active-session pointer names its key; upsert recomputes isActive from the
pointer and setActive leaves every non-target entry false. -/
theorem claim_C1_at_most_one_active (ops : List StoreOp)
    (h : ∀ op ∈ ops, isUpsertOrSetActive op = true) :
    (applyOps ops initStore).sessions.countP (fun p => p.2.isActive) ≤ 1 ∧
    ∀ p ∈ (applyOps ops initStore).sessions,
      p.2.isActive = true ↔
        (applyOps ops initStore).activeSessionId = some p.1 := by
  obtain ⟨h1, h2⟩ := storeInv_ops ops h
  exact ⟨countActive_le_one h2 h1, h1⟩

/-- Operation sequence used by the witness of claim C1, mirroring the
store test that switches the active session between two entries. -/
def c1ops : List StoreOp :=
  [.opUpsert 0 (sampleSession "s1"), .opUpsert 0 (sampleSession "s2"),
   .opSetActive (some "s1"), .opSetActive (some "s2")]

theorem claim_C1_witness :
    (∀ op ∈ c1ops, isUpsertOrSetActive op = true) ∧
    ((applyOps c1ops initStore).sessions.countP (fun p => p.2.isActive) ≤ 1 ∧
     ∀ p ∈ (applyOps c1ops initStore).sessions,
       p.2.isActive = true ↔
         (applyOps c1ops initStore).activeSessionId = some p.1) :=
  ⟨by decide, claim_C1_at_most_one_active c1ops (by decide)⟩

/-- Claim C4: if a session entry exists and k < N lines are appended with
bound maxLines = k, the entry's buffer afterwards has exactly k elements,
the most recent k appended values in append order (eviction from the
front). -/
theorem claim_C4_append_output_bound {st : StoreState} {id : String}
    {e : SessionEntry} {k : Nat} {L : List String}
    (h : lookupEntry st.sessions id = some e) (hk : k < L.length) :
    lookupEntry
        ((L.foldl (fun s l => appendSessionOutput id l k s) st).sessions) id =
      some { e with output := L.drop (L.length - k) } ∧
    (L.drop (L.length - k)).length = k :=
  appendFold_bound k L h hk

/-- Store used by the witnesses of claims C4, C5 and C8: a single
session s1 whose buffer holds one line. -/
def w1store : StoreState :=
  appendSessionOutput "s1" "line0" 100
    (upsertSession 0 (sampleSession "s1") initStore)

/-- The entry stored for s1 in the witness store. -/
def w1entry : SessionEntry :=
  { session := sampleSession "s1", output := ["line0"], lastActivity := 0,
    isActive := false }

theorem claim_C4_witness :
    (lookupEntry w1store.sessions "s1" = some w1entry ∧
      2 < (["a", "b", "c", "d"] : List String).length) ∧
    (lookupEntry
        ((["a", "b", "c", "d"].foldl
            (fun s l => appendSessionOutput "s1" l 2 s) w1store).sessions) "s1" =
      some { w1entry with
              output := ["a", "b", "c", "d"].drop (["a", "b", "c", "d"].length - 2) } ∧
     ((["a", "b", "c", "d"] : List String).drop
        (["a", "b", "c", "d"].length - 2)).length = 2) :=
  ⟨⟨by decide, by decide⟩,
    claim_C4_append_output_bound (by decide) (by decide)⟩

/-- Claim C5: upserting a session with an existing id replaces only the
Session metadata and preserves the output buffer and lastActivity, with
isActive recomputed from the pointer; a bulkReplace from an authoritative
list preserves each surviving entry's buffer the same way and drops
entries absent from the list. -/
theorem claim_C5_preserve_output (st : StoreState) (now : Nat)
    (s : Session) (e : SessionEntry) (ss : List Session) (s' : Session)
    (e' : SessionEntry) (idGone : String)
    (h1 : lookupEntry st.sessions s.id = some e)
    (h2 : (ss.map Session.id).Nodup) (h3 : s' ∈ ss)
    (h4 : lookupEntry st.sessions s'.id = some e')
    (h5 : idGone ∉ ss.map Session.id) :
    lookupEntry (upsertSession now s st).sessions s.id =
      some { session := s, output := e.output, lastActivity := e.lastActivity,
             isActive := decide (st.activeSessionId = some s.id) } ∧
    lookupEntry (setSessionsFromApi now ss st).sessions s'.id =
      some { session := s', output := e'.output,
             lastActivity := e'.lastActivity,
             isActive := decide (st.activeSessionId = some s'.id) } ∧
    lookupEntry (setSessionsFromApi now ss st).sessions idGone = none := by
  refine ⟨lookupEntry_upsertList_self h1, ?_, ?_⟩
  · have hmap := @lookupEntry_mapIds
      (fun s2 =>
        match lookupEntry st.sessions s2.id with
        | some e2 =>
            { session := s2, output := e2.output,
              lastActivity := e2.lastActivity,
              isActive := decide (st.activeSessionId = some s2.id) }
        | none =>
            { session := s2, output := [], lastActivity := now,
              isActive := decide (st.activeSessionId = some s2.id) })
      ss s' h2 h3
    simp only [h4] at hmap
    exact hmap
  · exact lookupEntry_mapIds_none h5

/-- The updated s1 session used by the C5 witness (same id, new status). -/
def w1updated : Session := { sampleSession "s1" with status := "reconnecting" }

theorem claim_C5_witness :
    (lookupEntry w1store.sessions w1updated.id = some w1entry ∧
     ([w1updated, sampleSession "s2"].map Session.id).Nodup ∧
     w1updated ∈ [w1updated, sampleSession "s2"] ∧
     lookupEntry w1store.sessions w1updated.id = some w1entry ∧
     "s3" ∉ [w1updated, sampleSession "s2"].map Session.id) ∧
    (lookupEntry (upsertSession 7 w1updated w1store).sessions w1updated.id =
       some { session := w1updated, output := w1entry.output,
              lastActivity := w1entry.lastActivity,
              isActive := decide (w1store.activeSessionId = some w1updated.id) } ∧
     lookupEntry
         (setSessionsFromApi 7 [w1updated, sampleSession "s2"] w1store).sessions
         w1updated.id =
       some { session := w1updated, output := w1entry.output,
              lastActivity := w1entry.lastActivity,
              isActive := decide (w1store.activeSessionId = some w1updated.id) } ∧
     lookupEntry
         (setSessionsFromApi 7 [w1updated, sampleSession "s2"] w1store).sessions
         "s3" = none) :=
  ⟨⟨by decide, by decide, by decide, by decide, by decide⟩,
    claim_C5_preserve_output w1store 7 w1updated w1entry
      [w1updated, sampleSession "s2"] w1updated w1entry "s3"
      (by decide) (by decide) (by decide) (by decide) (by decide)⟩

/-- Claim C6: remove(id) of the active session sets the pointer to null
and remove(id) of any other session leaves the pointer unchanged; the
removed entry itself is gone; and after any valid operation sequence the
non-null pointer refers to an existing entry. -/
theorem claim_C6_remove_clears_pointer (st : StoreState) (rid : String)
    (ops : List StoreOp) (hv : validOps initStore ops) :
    (removeSession rid st).activeSessionId =
      (if st.activeSessionId = some rid then none
       else st.activeSessionId) ∧
    lookupEntry (removeSession rid st).sessions rid = none ∧
    pointerValid (applyOps ops initStore) :=
  ⟨rfl, lookupEntry_removeSession_self st rid, pointerValid_ops ops hv⟩

/-- Store used by the C6 witness: one entry s1 which is active. -/
def c6state : StoreState :=
  { sessions := [("s1", { w1entry with isActive := true })],
    activeSessionId := some "s1" }

/-- Operation sequence used by the C6 witness. -/
def c6ops : List StoreOp :=
  [.opUpsert 0 (sampleSession "s1"), .opSetActive (some "s1"),
   .opRemove "s1"]

theorem claim_C6_witness :
    validOps initStore c6ops ∧
    ((removeSession "s1" c6state).activeSessionId =
       (if c6state.activeSessionId = some "s1" then none
        else c6state.activeSessionId) ∧
     lookupEntry (removeSession "s1" c6state).sessions "s1" = none ∧
     pointerValid (applyOps c6ops initStore)) := by
  have hv : validOps initStore c6ops := by
    refine ⟨trivial, ?_, trivial, trivial⟩
    show (lookupEntry
        (applyOp initStore (StoreOp.opUpsert 0 (sampleSession "s1"))).sessions
        "s1").isSome = true
    decide
  exact ⟨hv, claim_C6_remove_clears_pointer c6state "s1" c6ops hv⟩

/-- Claim C8: the id-targeting mutations updateStatus, appendOutput and
clearOutput are total functions that leave the whole store unchanged when
the id is absent. -/
theorem claim_C8_absent_id_noop (st : StoreState) (id : String) (now : Nat)
    (status line : String) (maxLines : Nat)
    (h : lookupEntry st.sessions id = none) :
    updateSessionStatus now id status st = st ∧
    appendSessionOutput id line maxLines st = st ∧
    clearSessionOutput id st = st := by
  refine ⟨?_, ?_, ?_⟩
  · simp only [updateSessionStatus]
    rw [modifyEntry_absent _ h]
  · simp only [appendSessionOutput]
    rw [modifyEntry_absent _ h]
  · simp only [clearSessionOutput]
    rw [modifyEntry_absent _ h]

theorem claim_C8_witness :
    lookupEntry w1store.sessions "ghost" = none ∧
    (updateSessionStatus 9 "ghost" "connected" w1store = w1store ∧
     appendSessionOutput "ghost" "x" 5 w1store = w1store ∧
     clearSessionOutput "ghost" w1store = w1store) :=
  ⟨by decide,
    claim_C8_absent_id_noop w1store "ghost" 9 "connected" "x" 5 (by decide)⟩

end SessionStore

namespace MPTWS

/-- Modelled from the spec: the connection status values of the
Connection Manager (WSConnectionStatus in the code;
src/frontend/app/mpt/api/mpt-websocket.ts is absent from the sources,
only its tests are present).  Spec section 3. -/
inductive WSConnectionStatus where
  | disconnected
  | connecting
  | connected
  | reconnecting
  | error
deriving Repr, DecidableEq

/-- Modelled from the spec: the Connection Manager configuration surface
(spec section 6): credential token, autoReconnect flag, maximum
reconnection attempts and base reconnect delay in milliseconds. -/
structure WSConfig where
  token : Option String
  autoReconnect : Bool
  maxReconnectAttempts : Nat
  reconnectDelay : Nat
deriving Repr, DecidableEq

/-- A frame written to the physical socket: the authentication frame or a
serialized protocol message. -/
inductive Frame where
  | auth (token : String)
  | msg (m : String)
deriving Repr, DecidableEq

/-- Modelled from the spec: the Connection Manager state: connection
status, the Outbound Queue, the frames written to the current socket, the
number of physical socket opens, the pending reconnection timer
(remaining delay), the reconnection attempt counter and the statuses
delivered to each registered connection-state observer. -/
structure WSState where
  status : WSConnectionStatus
  messageQueue : List String
  sentFrames : List Frame
  socketOpenCount : Nat
  reconnectTimer : Option Nat
  reconnectAttempts : Nat
  observers : List (List WSConnectionStatus)
deriving Repr, DecidableEq

/-- A freshly constructed manager: disconnected, empty queue, no socket,
no timer, no observers. -/
def initWS : WSState :=
  { status := .disconnected, messageQueue := [], sentFrames := [],
    socketOpenCount := 0, reconnectTimer := none, reconnectAttempts := 0,
    observers := [] }

/-- The discrete events that drive the Connection Manager: API calls
(connect, send, disconnect, observer registration), socket callbacks
(open success, open failure, close) and the passage of time for the
reconnection timer. -/
inductive WSEvent where
  | connectCall
  | openSuccess
  | openFailure
  | sendMsg (m : String)
  | closeEvt (code : Nat) (wasClean : Bool)
  | advanceTime (d : Nat)
  | disconnectCall
  | subscribeConn
deriving Repr, DecidableEq

/-- Record a status transition and synchronously notify every registered
connection-state observer of the new status. -/
def notifyStatus (s : WSConnectionStatus) (st : WSState) : WSState :=
  { st with
    status := s
    observers := st.observers.map (fun l => l ++ [s]) }

/-- The authentication frames sent right after a successful open: one
auth frame when a credential token is configured, none otherwise. -/
def authFrames (cfg : WSConfig) : List Frame :=
  match cfg.token with
  | some t => [.auth t]
  | none => []

/-- Modelled from the spec: one step of the Connection Manager
(spec sections 4.1, 5 and 6).
connect() is a no-op when already connected or connecting; otherwise it
opens a socket and transitions to connecting.  Open success sends the
auth frame (if configured) and then flushes the Outbound Queue in order.
send() transmits when connected and queues otherwise.  A close with
code 1000 and a clean flag is a normal closure; any other close while
connected schedules a reconnection when autoReconnect is on and attempts
remain.  The timer, once elapsed, performs the single scheduled retry.
disconnect() cancels the timer and transitions to disconnected.
Registering an observer immediately replays the current status. -/
def step (cfg : WSConfig) (st : WSState) : WSEvent → WSState
  | .connectCall =>
      match st.status with
      | .connected => st
      | .connecting => st
      | _ =>
          { notifyStatus .connecting st with
            socketOpenCount := st.socketOpenCount + 1
            sentFrames := []
            reconnectTimer := none }
  | .openSuccess =>
      if st.status = .connecting then
        { notifyStatus .connected st with
          sentFrames :=
            st.sentFrames ++ authFrames cfg ++ st.messageQueue.map Frame.msg
          messageQueue := []
          reconnectAttempts := 0 }
      else st
  | .openFailure =>
      if st.status = .connecting then notifyStatus .error st else st
  | .sendMsg m =>
      if st.status = .connected then
        { st with sentFrames := st.sentFrames ++ [Frame.msg m] }
      else
        { st with messageQueue := st.messageQueue ++ [m] }
  | .closeEvt code wasClean =>
      if st.status = .connected then
        if wasClean = true ∧ code = 1000 then
          { notifyStatus .disconnected st with reconnectTimer := none }
        else if cfg.autoReconnect = true then
          if st.reconnectAttempts < cfg.maxReconnectAttempts then
            { notifyStatus .reconnecting st with
              reconnectTimer := some cfg.reconnectDelay }
          else
            { notifyStatus .error st with reconnectTimer := none }
        else
          { notifyStatus .disconnected st with reconnectTimer := none }
      else st
  | .advanceTime d =>
      match st.reconnectTimer with
      | none => st
      | some r =>
          if r ≤ d then
            { notifyStatus .connecting st with
              reconnectTimer := none
              socketOpenCount := st.socketOpenCount + 1
              reconnectAttempts := st.reconnectAttempts + 1
              sentFrames := [] }
          else
            { st with reconnectTimer := some (r - d) }
  | .disconnectCall =>
      if st.status = .disconnected then
        { st with reconnectTimer := none }
      else
        { notifyStatus .disconnected st with reconnectTimer := none }
  | .subscribeConn =>
      { st with observers := st.observers ++ [[st.status]] }

/-- Interpretation of an event sequence, oldest first. -/
def applyEvents (cfg : WSConfig) (evs : List WSEvent) (st : WSState) :
    WSState :=
  evs.foldl (step cfg) st

/-- Time passage given as a list of elapsed amounts. -/
def ticks (cfg : WSConfig) (ds : List Nat) (st : WSState) : WSState :=
  applyEvents cfg (ds.map WSEvent.advanceTime) st

end MPTWS

namespace MPTWS

theorem sendFold_disconnected (cfg : WSConfig) :
    ∀ (ms : List String) (st : WSState), st.status = .disconnected →
      applyEvents cfg (ms.map WSEvent.sendMsg) st =
        { st with messageQueue := st.messageQueue ++ ms } := by
  intro ms
  induction ms with
  | nil => intro st h; simp [applyEvents]
  | cons m rest ih =>
      intro st h
      have hne : ¬(st.status = WSConnectionStatus.connected) := by
        rw [h]; intro hc; cases hc
      simp only [applyEvents, List.map_cons, List.foldl_cons]
      have hstep : step cfg st (.sendMsg m) =
          { st with messageQueue := st.messageQueue ++ [m] } := by
        simp [step, hne]
      rw [hstep]
      have := ih { st with messageQueue := st.messageQueue ++ [m] } h
      simp only [applyEvents] at this
      rw [this]
      simp

/-- Claim C2: messages sent while the manager is disconnected are all
appended to the Outbound Queue in order, and on the next successful
connection every queued message is written to the socket in original
enqueue order, after the authentication frame (when a token is
configured); the queue is empty afterwards. -/
theorem claim_C2_queue_then_flush (cfg : WSConfig) (ms : List String)
    (st : WSState) (h : st.status = .disconnected) :
    (applyEvents cfg (ms.map WSEvent.sendMsg) st).messageQueue =
      st.messageQueue ++ ms ∧
    (applyEvents cfg (ms.map WSEvent.sendMsg) st).status = .disconnected ∧
    (applyEvents cfg [.connectCall, .openSuccess]
        (applyEvents cfg (ms.map WSEvent.sendMsg) st)).sentFrames =
      authFrames cfg ++ (st.messageQueue ++ ms).map Frame.msg ∧
    (applyEvents cfg [.connectCall, .openSuccess]
        (applyEvents cfg (ms.map WSEvent.sendMsg) st)).messageQueue = [] := by
  have hq := sendFold_disconnected cfg ms st h
  rw [hq]
  refine ⟨rfl, h, ?_, ?_⟩ <;>
    simp [applyEvents, step, notifyStatus, h]

end MPTWS

namespace MPTWS

theorem connect_noop {cfg : WSConfig} {st : WSState}
    (h : st.status = .connected) : step cfg st .connectCall = st := by
  simp [step, h]

theorem replicate_connect_noop {cfg : WSConfig} {st : WSState} (n : Nat)
    (h : st.status = .connected) :
    applyEvents cfg (List.replicate n .connectCall) st = st := by
  induction n with
  | zero => rfl
  | succ k ih =>
      simp only [applyEvents, List.replicate_succ, List.foldl_cons]
      rw [connect_noop h]
      exact ih

/-- Claim C7: connect() while already connected is a no-op (resolves with
no state change and opens no second socket), so any number of connect()
calls from the connected state leaves exactly the one physical socket
open that established the connection. -/
theorem claim_C7_connect_idempotent (cfg : WSConfig) (n : Nat)
    (st : WSState) (h : st.status = .connected) :
    applyEvents cfg (List.replicate n .connectCall) st = st ∧
    (applyEvents cfg (.connectCall :: .openSuccess :: List.replicate n .connectCall)
        initWS).socketOpenCount = 1 := by
  refine ⟨replicate_connect_noop n h, ?_⟩
  have hconn :
      applyEvents cfg [.connectCall, .openSuccess] initWS =
        applyEvents cfg [.connectCall, .openSuccess] initWS := rfl
  have hstatus :
      (applyEvents cfg [.connectCall, .openSuccess] initWS).status =
        .connected := by
    simp [applyEvents, step, notifyStatus, initWS]
  have hcount :
      (applyEvents cfg [.connectCall, .openSuccess] initWS).socketOpenCount =
        1 := by
    simp [applyEvents, step, notifyStatus, initWS]
  have hsplit :
      applyEvents cfg (.connectCall :: .openSuccess :: List.replicate n .connectCall)
          initWS =
        applyEvents cfg (List.replicate n .connectCall)
          (applyEvents cfg [.connectCall, .openSuccess] initWS) := rfl
  rw [hsplit, replicate_connect_noop n hstatus, hcount]

/-- Configuration used by the connection witnesses: token configured,
autoReconnect on, three attempts, one second base delay (the values the
websocket tests use). -/
def cfg0 : WSConfig :=
  { token := some "auth-token-123", autoReconnect := true,
    maxReconnectAttempts := 3, reconnectDelay := 1000 }

/-- The manager right after a successful connect with cfg0. -/
def connState : WSState :=
  applyEvents cfg0 [.connectCall, .openSuccess] initWS

theorem claim_C2_witness :
    initWS.status = .disconnected ∧
    ((applyEvents cfg0 (["m1", "m2"].map WSEvent.sendMsg) initWS).messageQueue =
       initWS.messageQueue ++ ["m1", "m2"] ∧
     (applyEvents cfg0 (["m1", "m2"].map WSEvent.sendMsg) initWS).status =
       .disconnected ∧
     (applyEvents cfg0 [.connectCall, .openSuccess]
         (applyEvents cfg0 (["m1", "m2"].map WSEvent.sendMsg) initWS)).sentFrames =
       authFrames cfg0 ++ (initWS.messageQueue ++ ["m1", "m2"]).map Frame.msg ∧
     (applyEvents cfg0 [.connectCall, .openSuccess]
         (applyEvents cfg0 (["m1", "m2"].map WSEvent.sendMsg) initWS)).messageQueue =
       []) :=
  ⟨by decide, claim_C2_queue_then_flush cfg0 ["m1", "m2"] initWS (by decide)⟩

theorem claim_C7_witness :
    connState.status = .connected ∧
    (applyEvents cfg0 (List.replicate 2 .connectCall) connState = connState ∧
     (applyEvents cfg0
         (.connectCall :: .openSuccess :: List.replicate 2 .connectCall)
         initWS).socketOpenCount = 1) :=
  ⟨by decide, claim_C7_connect_idempotent cfg0 2 connState (by decide)⟩

end MPTWS

namespace MPTWS

theorem advance_noTimer {cfg : WSConfig} {st : WSState}
    (h : st.reconnectTimer = none) (d : Nat) :
    step cfg st (.advanceTime d) = st := by
  simp [step, h]

theorem ticks_noTimer {cfg : WSConfig} :
    ∀ (ds : List Nat) (st : WSState), st.reconnectTimer = none →
      ticks cfg ds st = st := by
  intro ds
  induction ds with
  | nil => intro st _; rfl
  | cons d rest ih =>
      intro st h
      simp only [ticks, applyEvents, List.map_cons, List.foldl_cons]
      rw [advance_noTimer h d]
      exact ih st h

theorem ticks_before {cfg : WSConfig} :
    ∀ (ds : List Nat) (st : WSState) (r : Nat),
      st.reconnectTimer = some r → ds.sum < r →
      ticks cfg ds st = { st with reconnectTimer := some (r - ds.sum) } := by
  intro ds
  induction ds with
  | nil =>
      intro st r h _
      simp only [ticks, applyEvents, List.map_nil, List.foldl_nil,
        List.sum_nil, Nat.sub_zero]
      rw [← h]
  | cons d rest ih =>
      intro st r h hsum
      have hd : ¬(r ≤ d) := by
        simp only [List.sum_cons] at hsum
        omega
      simp only [ticks, applyEvents, List.map_cons, List.foldl_cons]
      have hstep : step cfg st (.advanceTime d) =
          { st with reconnectTimer := some (r - d) } := by
        simp [step, h, hd]
      rw [hstep]
      have hrec := ih { st with reconnectTimer := some (r - d) } (r - d) rfl
        (by simp only [List.sum_cons] at hsum; omega)
      simp only [ticks, applyEvents] at hrec
      rw [hrec]
      have harith : r - d - rest.sum = r - (d :: rest).sum := by
        rw [List.sum_cons]; omega
      rw [harith]

theorem ticks_fire {cfg : WSConfig} :
    ∀ (ds : List Nat) (st : WSState) (r : Nat),
      st.reconnectTimer = some r → 0 < r → r ≤ ds.sum →
      (ticks cfg ds st).status = .connecting ∧
      (ticks cfg ds st).socketOpenCount = st.socketOpenCount + 1 ∧
      (ticks cfg ds st).reconnectTimer = none := by
  intro ds
  induction ds with
  | nil =>
      intro st r _ hr hsum
      simp only [List.sum_nil] at hsum
      omega
  | cons d rest ih =>
      intro st r h hr hsum
      by_cases hd : r ≤ d
      · have hstep : step cfg st (.advanceTime d) =
            { notifyStatus .connecting st with
              reconnectTimer := none
              socketOpenCount := st.socketOpenCount + 1
              reconnectAttempts := st.reconnectAttempts + 1
              sentFrames := [] } := by
          simp [step, h, hd]
        simp only [ticks, applyEvents, List.map_cons, List.foldl_cons]
        rw [hstep]
        have hrest := @ticks_noTimer cfg rest
          { notifyStatus .connecting st with
            reconnectTimer := none
            socketOpenCount := st.socketOpenCount + 1
            reconnectAttempts := st.reconnectAttempts + 1
            sentFrames := [] } rfl
        simp only [ticks, applyEvents] at hrest
        rw [hrest]
        exact ⟨rfl, rfl, rfl⟩
      · have hstep : step cfg st (.advanceTime d) =
            { st with reconnectTimer := some (r - d) } := by
          simp [step, h, hd]
        simp only [ticks, applyEvents, List.map_cons, List.foldl_cons]
        rw [hstep]
        have hrec := ih { st with reconnectTimer := some (r - d) } (r - d)
          rfl (by omega)
          (by simp only [List.sum_cons] at hsum; omega)
        simp only [ticks, applyEvents] at hrec
        exact hrec

end MPTWS

namespace MPTWS

/-- Claim C3: with autoReconnect enabled and attempts remaining, an
unexpected closure (unclean or non-1000 code) of a connected manager
moves the status to reconnecting and schedules exactly one retry: the
status stays reconnecting and no socket is opened while less than the
configured delay has elapsed, and once the delay has elapsed the status
is connecting with exactly one additional socket open; a clean closure
(code 1000) moves to disconnected and schedules nothing; and no
reconnection ever fires after an intervening explicit disconnect(). -/
theorem claim_C3_reconnect_gating (cfg : WSConfig) (st : WSState)
    (h1 : st.status = .connected) (h2 : cfg.autoReconnect = true)
    (h3 : st.reconnectAttempts < cfg.maxReconnectAttempts)
    (h4 : 0 < cfg.reconnectDelay) (code : Nat) (wasClean : Bool) :
    (¬(wasClean = true ∧ code = 1000) →
      (step cfg st (.closeEvt code wasClean)).status = .reconnecting ∧
      (step cfg st (.closeEvt code wasClean)).reconnectTimer =
        some cfg.reconnectDelay ∧
      (∀ ds : List Nat, ds.sum < cfg.reconnectDelay →
        (ticks cfg ds (step cfg st (.closeEvt code wasClean))).status =
          .reconnecting ∧
        (ticks cfg ds (step cfg st (.closeEvt code wasClean))).socketOpenCount =
          st.socketOpenCount) ∧
      (∀ ds : List Nat, cfg.reconnectDelay ≤ ds.sum →
        (ticks cfg ds (step cfg st (.closeEvt code wasClean))).status =
          .connecting ∧
        (ticks cfg ds (step cfg st (.closeEvt code wasClean))).socketOpenCount =
          st.socketOpenCount + 1) ∧
      (∀ ds : List Nat,
        (ticks cfg ds
            (step cfg (step cfg st (.closeEvt code wasClean))
              .disconnectCall)).status = .disconnected ∧
        (ticks cfg ds
            (step cfg (step cfg st (.closeEvt code wasClean))
              .disconnectCall)).socketOpenCount = st.socketOpenCount)) ∧
    ((wasClean = true ∧ code = 1000) →
      (step cfg st (.closeEvt code wasClean)).status = .disconnected ∧
      (step cfg st (.closeEvt code wasClean)).reconnectTimer = none ∧
      (∀ ds : List Nat,
        ticks cfg ds (step cfg st (.closeEvt code wasClean)) =
          step cfg st (.closeEvt code wasClean))) := by
  constructor
  · intro hcl
    have hstU : step cfg st (.closeEvt code wasClean) =
        { notifyStatus .reconnecting st with
          reconnectTimer := some cfg.reconnectDelay } := by
      simp [step, h1, hcl, h2, h3]
    rw [hstU]
    refine ⟨rfl, rfl, ?_, ?_, ?_⟩
    · intro ds hds
      rw [ticks_before ds _ cfg.reconnectDelay rfl hds]
      exact ⟨rfl, rfl⟩
    · intro ds hds
      obtain ⟨hs, hc, _⟩ := ticks_fire ds
        { notifyStatus .reconnecting st with
          reconnectTimer := some cfg.reconnectDelay }
        cfg.reconnectDelay rfl h4 hds
      exact ⟨hs, hc⟩
    · intro ds
      have hstD : step cfg
          { notifyStatus .reconnecting st with
            reconnectTimer := some cfg.reconnectDelay } .disconnectCall =
          { notifyStatus .disconnected
              { notifyStatus .reconnecting st with
                reconnectTimer := some cfg.reconnectDelay } with
            reconnectTimer := none } := by
        simp [step, notifyStatus]
      rw [hstD, ticks_noTimer ds _ rfl]
      exact ⟨rfl, rfl⟩
  · intro hcl
    have hstC : step cfg st (.closeEvt code wasClean) =
        { notifyStatus .disconnected st with reconnectTimer := none } := by
      simp [step, h1, hcl]
    rw [hstC]
    refine ⟨rfl, rfl, ?_⟩
    intro ds
    exact ticks_noTimer ds _ rfl

end MPTWS

namespace MPTWS

theorem claim_C3_witness :
    (connState.status = .connected ∧ cfg0.autoReconnect = true ∧
     connState.reconnectAttempts < cfg0.maxReconnectAttempts ∧
     0 < cfg0.reconnectDelay) ∧
    ((¬((false : Bool) = true ∧ (1006 : Nat) = 1000) →
      (step cfg0 connState (.closeEvt 1006 false)).status = .reconnecting ∧
      (step cfg0 connState (.closeEvt 1006 false)).reconnectTimer =
        some cfg0.reconnectDelay ∧
      (∀ ds : List Nat, ds.sum < cfg0.reconnectDelay →
        (ticks cfg0 ds (step cfg0 connState (.closeEvt 1006 false))).status =
          .reconnecting ∧
        (ticks cfg0 ds
            (step cfg0 connState (.closeEvt 1006 false))).socketOpenCount =
          connState.socketOpenCount) ∧
      (∀ ds : List Nat, cfg0.reconnectDelay ≤ ds.sum →
        (ticks cfg0 ds (step cfg0 connState (.closeEvt 1006 false))).status =
          .connecting ∧
        (ticks cfg0 ds
            (step cfg0 connState (.closeEvt 1006 false))).socketOpenCount =
          connState.socketOpenCount + 1) ∧
      (∀ ds : List Nat,
        (ticks cfg0 ds
            (step cfg0 (step cfg0 connState (.closeEvt 1006 false))
              .disconnectCall)).status = .disconnected ∧
        (ticks cfg0 ds
            (step cfg0 (step cfg0 connState (.closeEvt 1006 false))
              .disconnectCall)).socketOpenCount =
          connState.socketOpenCount)) ∧
     (((false : Bool) = true ∧ (1006 : Nat) = 1000) →
      (step cfg0 connState (.closeEvt 1006 false)).status = .disconnected ∧
      (step cfg0 connState (.closeEvt 1006 false)).reconnectTimer = none ∧
      (∀ ds : List Nat,
        ticks cfg0 ds (step cfg0 connState (.closeEvt 1006 false)) =
          step cfg0 connState (.closeEvt 1006 false)))) :=
  ⟨⟨by decide, by decide, by decide, by decide⟩,
    claim_C3_reconnect_gating cfg0 connState (by decide) (by decide)
      (by decide) (by decide) 1006 false⟩

end MPTWS

namespace MPTWS

/-- Claim C9: registering a connection-state observer synchronously
delivers the current status to that observer during registration (without
any transition occurring), and every subsequent status transition is
delivered to all registered observers. -/
theorem claim_C9_observer_replay (cfg : WSConfig) (st : WSState) :
    (step cfg st .subscribeConn).observers = st.observers ++ [[st.status]] ∧
    (step cfg st .subscribeConn).status = st.status ∧
    ∀ (st2 : WSState) (e : WSEvent),
      (step cfg st2 e).status ≠ st2.status →
      (step cfg st2 e).observers =
        st2.observers.map (fun l => l ++ [(step cfg st2 e).status]) := by
  refine ⟨rfl, rfl, ?_⟩
  intro st2 e hne
  cases e with
  | connectCall =>
      cases h : st2.status <;> simp_all [step, notifyStatus]
  | openSuccess =>
      by_cases h : st2.status = .connecting <;> simp_all [step, notifyStatus]
  | openFailure =>
      by_cases h : st2.status = .connecting <;> simp_all [step, notifyStatus]
  | sendMsg m =>
      by_cases h : st2.status = .connected <;> simp_all [step]
  | closeEvt code wasClean =>
      by_cases h : st2.status = .connected
      · by_cases hcl : wasClean = true ∧ code = 1000
        · have hstep : step cfg st2 (.closeEvt code wasClean) =
              { notifyStatus .disconnected st2 with reconnectTimer := none } := by
            simp [step, h, hcl]
          rw [hstep]; rfl
        · by_cases har : cfg.autoReconnect = true
          · by_cases hat : st2.reconnectAttempts < cfg.maxReconnectAttempts
            · have hstep : step cfg st2 (.closeEvt code wasClean) =
                  { notifyStatus .reconnecting st2 with
                    reconnectTimer := some cfg.reconnectDelay } := by
                simp [step, h, hcl, har, hat]
              rw [hstep]; rfl
            · have hstep : step cfg st2 (.closeEvt code wasClean) =
                  { notifyStatus .error st2 with reconnectTimer := none } := by
                simp [step, h, hcl, har, hat]
              rw [hstep]; rfl
          · have hstep : step cfg st2 (.closeEvt code wasClean) =
                { notifyStatus .disconnected st2 with reconnectTimer := none } := by
              simp [step, h, hcl, har]
            rw [hstep]; rfl
      · simp_all [step]
  | advanceTime d =>
      rcases ht : st2.reconnectTimer with _ | r
      · simp_all [step]
      · by_cases hd : r ≤ d <;> simp_all [step, notifyStatus]
  | disconnectCall =>
      by_cases h : st2.status = .disconnected <;> simp_all [step, notifyStatus]
  | subscribeConn =>
      simp_all [step]

theorem claim_C9_witness :
    ((step cfg0 initWS .subscribeConn).observers =
       initWS.observers ++ [[initWS.status]] ∧
     (step cfg0 initWS .subscribeConn).status = initWS.status) ∧
    ((step cfg0 initWS .connectCall).status ≠ initWS.status ∧
     (step cfg0 initWS .connectCall).observers =
       initWS.observers.map
         (fun l => l ++ [(step cfg0 initWS .connectCall).status])) := by
  have h := claim_C9_observer_replay cfg0 initWS
  exact ⟨⟨h.1, h.2.1⟩, by decide, h.2.2 initWS .connectCall (by decide)⟩

end MPTWS

namespace OutputParser

/-- A search result of searchOutput (output-parser.ts, SearchResult):
1-based line number, the matching line, the match bounds within it and
the context lines before and after. -/
structure SearchResult where
  lineNumber : Nat
  line : String
  matchStart : Nat
  matchEnd : Nat
  ctxBefore : List String
  ctxAfter : List String
deriving Repr, DecidableEq

/-- The JavaScript regular-expression engine is abstracted: a compiled
regex is a function returning the first match's start and end offsets in
a line (regex.exec with lastIndex reset to 0), or none when the line has
no match. -/
def Matcher := String → Option (Nat × Nat)

/-- JavaScript Array.prototype.slice(a, b): the elements with indices in
[a, b). -/
def jsSlice (a b : Nat) (l : List String) : List String :=
  (l.take b).drop a

/-- The per-line scan loop of searchOutput (output-parser.ts lines
637-657): for each index i, run the compiled regex with lastIndex reset;
on a match record lineNumber i+1, the match bounds,
context.before = lines.slice(max(0, i-contextLines), i) and
context.after = lines.slice(i+1, min(lines.length, i+contextLines+1)). -/
def searchLines (m : Matcher) (contextLines : Nat) (lines : List String) :
    List SearchResult :=
  (List.range lines.length).filterMap (fun i =>
    match lines.get? i with
    | none => none
    | some line =>
        match m line with
        | none => none
        | some (s, e) =>
            some { lineNumber := i + 1, line := line, matchStart := s,
                   matchEnd := e,
                   ctxBefore := jsSlice (i - contextLines) i lines,
                   ctxAfter :=
                     jsSlice (i + 1) (min lines.length (i + contextLines + 1))
                       lines })

/-- searchOutput (output-parser.ts lines 626-660): compile the pattern
(new RegExp(pattern, "gi"), abstracted as the compile argument); an
invalid pattern raises "Invalid search pattern"; otherwise split the
output on newlines and scan line by line. -/
def searchOutput (pattern : String) (compile : String → Option Matcher)
    (output : String) (contextLines : Nat) :
    Except String (List SearchResult) :=
  match compile pattern with
  | none => .error ("Invalid search pattern: " ++ pattern)
  | some m => .ok (searchLines m contextLines (output.splitOn "\n"))

theorem searchLines_body_lineNumber {m : Matcher} {c : Nat}
    {lines : List String} {i : Nat} {r : SearchResult}
    (h : (match lines.get? i with
      | none => none
      | some line =>
          match m line with
          | none => none
          | some (s, e) =>
              some { lineNumber := i + 1, line := line, matchStart := s,
                     matchEnd := e,
                     ctxBefore := jsSlice (i - c) i lines,
                     ctxAfter :=
                       jsSlice (i + 1) (min lines.length (i + c + 1))
                         lines }) = some r) :
    r.lineNumber = i + 1 ∧ lines.get? i = some r.line ∧
    m r.line = some (r.matchStart, r.matchEnd) ∧
    r.ctxBefore = jsSlice (i - c) i lines ∧
    r.ctxAfter = jsSlice (i + 1) (min lines.length (i + c + 1)) lines := by
  rcases hline : lines.get? i with _ | line
  · rw [hline] at h; cases h
  · rw [hline] at h
    dsimp only at h
    rcases hm : m line with _ | se
    · rw [hm] at h; cases h
    · rcases se with ⟨s, e⟩
      rw [hm] at h
      dsimp only at h
      simp only [Option.some.injEq] at h
      subst h
      exact ⟨rfl, rfl, by rw [hm], rfl, rfl⟩

/-- Claim C10: for a pattern the engine compiles, searchOutput returns
results in strictly increasing 1-based lineNumber order (hence at most
one result per line, the matcher reporting only the first match of a
line), each carrying the matching line, the first match's bounds, and as
context exactly the up-to-contextLines lines immediately before and after
the matching line in original order; an invalid pattern produces an error
instead of results. -/
theorem claim_C10_search_output (compile : String → Option Matcher)
    (pattern output : String) (c : Nat) :
    (∀ m, compile pattern = some m →
      searchOutput pattern compile output c =
        .ok (searchLines m c (output.splitOn "\n")) ∧
      ((searchLines m c (output.splitOn "\n")).map
          SearchResult.lineNumber).Pairwise (· < ·) ∧
      ∀ r ∈ searchLines m c (output.splitOn "\n"),
        1 ≤ r.lineNumber ∧
        r.lineNumber ≤ (output.splitOn "\n").length ∧
        (output.splitOn "\n").get? (r.lineNumber - 1) = some r.line ∧
        m r.line = some (r.matchStart, r.matchEnd) ∧
        r.ctxBefore =
          jsSlice (r.lineNumber - 1 - c) (r.lineNumber - 1)
            (output.splitOn "\n") ∧
        r.ctxAfter =
          jsSlice r.lineNumber
            (min (output.splitOn "\n").length (r.lineNumber + c))
            (output.splitOn "\n")) ∧
    (compile pattern = none →
      searchOutput pattern compile output c =
        .error ("Invalid search pattern: " ++ pattern)) := by
  constructor
  · intro m hm
    refine ⟨by simp [searchOutput, hm], ?_, ?_⟩
    · rw [List.pairwise_map]
      refine List.Pairwise.filterMap _ ?_ (List.pairwise_lt_range _)
      intro i j hij r hr r' hr'
      have h1 := (searchLines_body_lineNumber hr).1
      have h2 := (searchLines_body_lineNumber hr').1
      omega
    · intro r hr
      obtain ⟨i, hi, hfi⟩ := List.mem_filterMap.mp hr
      rw [List.mem_range] at hi
      obtain ⟨hln, hget, hmatch, hbefore, hafter⟩ :=
        searchLines_body_lineNumber hfi
      have harith : i + 1 + c = i + c + 1 := by omega
      refine ⟨by omega, by omega, ?_, hmatch, ?_, ?_⟩
      · rw [hln, Nat.add_sub_cancel]
        exact hget
      · rw [hln, Nat.add_sub_cancel]
        exact hbefore
      · rw [hln, harith]
        exact hafter
  · intro h
    simp [searchOutput, h]

/-- A concrete compiled matcher used by the C10 witness: matches the
whole line "hit" at offsets 0 to 3. -/
def hitMatcher : Matcher := fun line =>
  if line = "hit" then some (0, 3) else none

/-- A concrete regex engine for the C10 witness: only the pattern "hit"
compiles. -/
def compile0 : String → Option Matcher := fun pat =>
  if pat = "hit" then some hitMatcher else none

theorem claim_C10_witness :
    (compile0 "hit" = some hitMatcher ∧ compile0 "[" = none) ∧
    (searchOutput "hit" compile0 "a\nhit\nb" 1 =
       .ok (searchLines hitMatcher 1 ("a\nhit\nb".splitOn "\n")) ∧
     ((searchLines hitMatcher 1 ("a\nhit\nb".splitOn "\n")).map
         SearchResult.lineNumber).Pairwise (· < ·) ∧
     ∀ r ∈ searchLines hitMatcher 1 ("a\nhit\nb".splitOn "\n"),
       1 ≤ r.lineNumber ∧
       r.lineNumber ≤ ("a\nhit\nb".splitOn "\n").length ∧
       ("a\nhit\nb".splitOn "\n").get? (r.lineNumber - 1) = some r.line ∧
       hitMatcher r.line = some (r.matchStart, r.matchEnd) ∧
       r.ctxBefore =
         jsSlice (r.lineNumber - 1 - 1) (r.lineNumber - 1)
           ("a\nhit\nb".splitOn "\n") ∧
       r.ctxAfter =
         jsSlice r.lineNumber
           (min ("a\nhit\nb".splitOn "\n").length (r.lineNumber + 1))
           ("a\nhit\nb".splitOn "\n")) ∧
    searchOutput "[" compile0 "x" 1 =
      .error ("Invalid search pattern: " ++ "[") := by
  refine ⟨⟨rfl, rfl⟩, ?_, ?_⟩
  · exact (claim_C10_search_output compile0 "hit" "a\nhit\nb" 1).1
      hitMatcher rfl
  · exact (claim_C10_search_output compile0 "[" "x" 1).2 rfl

end OutputParser
